import Mathlib

/-!
Shallow embedding of the core relay pipeline of `src/index.js`
(twitch-chat-overlay-local): the chat event normalizer with its emote span
extractor, the font resolver used by the `/fonts/:font` asset endpoint, the
startup font validation, and the Socket.IO broadcast channel (settings push
on connect, chatMessage fan-out).

JavaScript builtins used by the source (`String.prototype.split`,
`Number`, `String.prototype.toLowerCase`, `path.extname`, `path.basename`)
are modelled explicitly below on the value ranges the source feeds them
(ASCII names, hyphen-free numeric tokens).
-/

namespace Overlay

/-! ## Models of the JavaScript builtins the source calls -/

/-- Model of JS `s.split('-')` on the character list: splitting on a single
character, keeping empty fields, always returning at least one field. -/
def splitCharsOn (c : Char) : List Char → List (List Char)
  | [] => [[]]
  | x :: xs =>
    if x = c then [] :: splitCharsOn c xs
    else
      match splitCharsOn c xs with
      | [] => [[x]]
      | l :: ls => (x :: l) :: ls

/-- Model of JS `position.split('-')` (src/index.js:216). -/
def jsSplitDash (s : String) : List String :=
  (splitCharsOn '-' s.toList).map String.mk

/-- A JS number as it occurs in an emote span offset: a concrete number,
the `NaN` produced by `Number` on a non-numeric string, or `undefined`
from destructuring a too-short array. -/
inductive JsOffset
  | num (n : Nat)
  | nan
  | undef
deriving DecidableEq, Repr

/-- Digit string to value, most significant first. -/
def digitsToNat (cs : List Char) : Nat :=
  cs.foldl (fun n c => 10 * n + (c.toNat - 48)) 0

/-- Model of JS `Number(s)` on the hyphen-free fields produced by
`split('-')` in src/index.js:216: the empty string converts to `0`, a
string of ASCII digits to its value, anything else to `NaN` (exotic
numeric forms such as hex or exponents do not occur in emote tokens). -/
def jsNumber (s : String) : JsOffset :=
  let cs := s.toList
  if cs = [] then .num 0
  else if cs.all Char.isDigit then .num (digitsToNat cs)
  else .nan

/-- Model of JS `s.toLowerCase()` on ASCII strings (font names and file
names): ASCII uppercase letters are lowered, other characters kept. -/
def jsToLower (s : String) : String :=
  String.mk (s.toList.map Char.toLower)

/-! ## Emote span extractor and chat event normalizer (src/index.js:210-228) -/

/-- One normalized emote occurrence: `emotes.push({ id: emoteId, start, end })`
in src/index.js:217. -/
structure EmoteSpan where
  id : String
  start : JsOffset
  end_ : JsOffset
deriving DecidableEq, Repr

/-- `const [start, end] = position.split('-').map(Number)` (src/index.js:216):
the first field always exists; a missing second field leaves `end`
undefined. -/
def parseSpanOffsets (pos : String) : JsOffset × JsOffset :=
  let parts := jsSplitDash pos
  (jsNumber (parts.headD ""),
   match parts.get? 1 with
   | some f => jsNumber f
   | none => JsOffset.undef)

/-- The `tags.emotes` mapping, id to position tokens, in its JS iteration
order; `none` models an absent/undefined `emotes` tag. -/
abbrev EmoteMap := Option (List (String × List String))

/-- The emote extraction loop in src/index.js:211-220: for each id, for
each position token, push one span; nothing when `tags.emotes` is falsy. -/
def extractEmotes : EmoteMap → List EmoteSpan
  | none => []
  | some m =>
    m.flatMap fun p =>
      p.2.map fun pos =>
        { id := p.1, start := (parseSpanOffsets pos).1, end_ := (parseSpanOffsets pos).2 }

/-- The message tags the handler reads: `tags['display-name']`,
`tags.color`, `tags.emotes`; `none` models an absent tag. -/
structure Tags where
  displayName : Option String
  color : Option String
  emotes : EmoteMap
deriving DecidableEq, Repr

/-- JS `v || d` on a possibly-undefined string: an absent value and the
empty string are both falsy and yield the default. -/
def jsOrString (v : Option String) (d : String) : String :=
  match v with
  | none => d
  | some s => if s = "" then d else s

/-- The broadcast payload of `io.emit('chatMessage', ...)` in
src/index.js:222-227. -/
structure ChatEvent where
  username : String
  message : String
  color : String
  emotes : List EmoteSpan
deriving DecidableEq, Repr

/-- The `client.on('message', (chan, tags, message, self) => ...)` handler
body (src/index.js:210-228) as a pure transform: one ChatEvent per
notification. `chan` and `self` are parameters of the handler the body
never reads. -/
def normalize (chan : String) (tags : Tags) (message : String) (self : Bool) : ChatEvent :=
  { username := jsOrString tags.displayName "Anonymous"
    message := message
    color := jsOrString tags.color "#ffffff"
    emotes := extractEmotes tags.emotes }

/-! ## Font resolver, asset endpoint, startup validation (src/index.js:88-110, 148-193)

The fonts directory is modelled by a flag `present` (`fs.existsSync(fontsDir)`)
and the list `files` of its directory entries (`fs.readdirSync(fontsDir)`);
`fs.existsSync(path.join(fontsDir, name))` holds exactly when the directory
is present and lists `name`. -/

/-- The supported font extensions, in the priority order of the lookup loop
(src/index.js:159). -/
def supportedExts : List String := [".ttf", ".otf", ".woff", ".woff2"]

/-- Model of node `path.extname` on slash-free names: the suffix from the
last dot, empty when there is no dot or the only role of the dot is to
lead the name. -/
def extname (s : String) : String :=
  let rev := s.toList.reverse
  if rev.contains '.' then
    let ext := rev.takeWhile (fun c => c ≠ '.')
    let pre := rev.drop (ext.length + 1)
    if pre = [] then "" else String.mk ('.' :: ext.reverse)
  else ""

/-- Model of node `path.basename(s, suf)` on slash-free names: drops `suf`
when it is a proper suffix of `s`, case-sensitively. -/
def stripSuffix (s suf : String) : String :=
  let cs := s.toList
  let sl := suf.toList
  if cs ≠ sl ∧ sl.isSuffixOf cs then String.mk (cs.take (cs.length - sl.length))
  else s

/-- The extension-stripping prelude of the `/fonts/:font` handler
(src/index.js:153-157): when the lowercased extension of the requested name
is a supported one, strip it. -/
def stripFontExt (fontName : String) : String :=
  let ext := jsToLower (extname fontName)
  if supportedExts.contains ext then stripSuffix fontName ext else fontName

/-- The lookup loop of src/index.js:163-176 over a list of extensions:
first an exact-name existence check, then a case-insensitive search of the
directory listing; first extension that matches wins. -/
def resolveFontAux (present : Bool) (files : List String) (fontName : String) :
    List String → Option String
  | [] => none
  | e :: es =>
    let candidate := fontName ++ e
    if present && files.contains candidate then some candidate
    else
      match (if present then files else []).find?
          (fun f => jsToLower f == jsToLower candidate) with
      | some m => some m
      | none => resolveFontAux present files fontName es

/-- Font resolution over the supported extensions: the name of the served
directory entry, or `none` when the loop leaves `fontPath` null. -/
def resolveFont (present : Bool) (files : List String) (fontName : String) : Option String :=
  resolveFontAux present files fontName supportedExts

/-- The response of the `/fonts/:font` handler: stream a file with a
content type, or a 404 `Font not found`. -/
inductive FontResponse
  | serve (file : String) (mime : String)
  | notFound
deriving DecidableEq, Repr

/-- The mime map of src/index.js:179-185, with the generic-binary fallback
for an unmapped extension. -/
def mimeFor (file : String) : String :=
  let e := jsToLower (extname file)
  if e = ".ttf" then "font/ttf"
  else if e = ".otf" then "font/otf"
  else if e = ".woff" then "font/woff"
  else if e = ".woff2" then "font/woff2"
  else "application/octet-stream"

/-- The whole `/fonts/:font` handler (src/index.js:148-193): strip a
supported extension from the raw request parameter, resolve, then either
stream the resolved file with its mime type or answer 404. -/
def serveFontRequest (present : Bool) (files : List String) (raw : String) : FontResponse :=
  match resolveFont present files (stripFontExt raw) with
  | some f => FontResponse.serve f (mimeFor f)
  | none => FontResponse.notFound

/-- The filter `/\.(ttf|otf|woff|woff2)$/i.test(f)` of src/index.js:98. -/
def isFontFile (f : String) : Bool :=
  supportedExts.any (fun e => e.toList.isSuffixOf (jsToLower f).toList)

/-- Startup font validation (src/index.js:88-110): a name that lowercases
to `arial` passes with no disk access; otherwise the fonts directory must
exist and contain a font file whose base name matches case-insensitively. -/
def validateFont (present : Bool) (files : List String) (font : String) : Bool :=
  if jsToLower font = "arial" then true
  else if !present then false
  else
    let fontFiles := files.filter isFontFile
    let fontNames := fontFiles.map (fun f => stripSuffix f (extname f))
    fontNames.any (fun name => jsToLower name == jsToLower font)

/-! ## Broadcast channel (src/index.js:222-227, 231-239)

Socket.IO is modelled by an event-driven server: an input is either a new
socket connection or an inbound platform message. `io.on('connection')`
sends one `settings` payload to the connecting socket; the message handler
broadcasts one `chatMessage` payload via `io.emit` to every socket
connected at that time. Deliveries are recorded in an append-only log of
(socket id, payload) pairs; a socket id identifies one connection. -/

/-- The `settings` payload pushed in src/index.js:233-238. -/
structure SessionConfig where
  viewportHeight : Nat
  messageSeconds : Nat
  messageFont : String
  namefont : String
deriving DecidableEq, Repr

/-- A payload a connected socket can receive. -/
inductive OutMsg
  | settings (cfg : SessionConfig)
  | chatMessage (e : ChatEvent)
deriving DecidableEq, Repr

/-- Is the payload a `chatMessage` broadcast? -/
def OutMsg.isChatMessage : OutMsg → Bool
  | .chatMessage _ => true
  | _ => false

/-- An input the server reacts to: a socket connecting, or a platform
message notification `(chan, tags, message, self)`. -/
inductive InEvent
  | connect (cid : Nat)
  | platformMessage (chan : String) (tags : Tags) (message : String) (self : Bool)
deriving DecidableEq, Repr

/-- Server state: the connected socket ids and the delivery log. -/
structure ServerState where
  connected : List Nat
  log : List (Nat × OutMsg)
deriving DecidableEq, Repr

/-- One reaction: `io.on('connection')` registers the socket and emits
`settings` to it alone (src/index.js:231-239); the message handler
normalizes and `io.emit`s the ChatEvent to every connected socket
(src/index.js:210-228). -/
def step (cfg : SessionConfig) (s : ServerState) : InEvent → ServerState
  | .connect cid =>
    { connected := s.connected ++ [cid]
      log := s.log ++ [(cid, OutMsg.settings cfg)] }
  | .platformMessage chan tags message self =>
    { connected := s.connected
      log := s.log ++ s.connected.map (fun c => (c, OutMsg.chatMessage (normalize chan tags message self))) }

/-- Run the server over a list of inputs. -/
def runEvents (cfg : SessionConfig) (s : ServerState) : List InEvent → ServerState
  | [] => s
  | e :: es => runEvents cfg (step cfg s e) es

/-- The state before any input. -/
def initState : ServerState := { connected := [], log := [] }

/-- The payloads socket `c` has received, in delivery order. -/
def clientTrace (c : Nat) (s : ServerState) : List OutMsg :=
  (s.log.filter (fun p => p.1 == c)).map (fun p => p.2)

/-! ## Theorems -/

/-- C3: every inbound platform message and tag set yields exactly one
ChatEvent; its username is `"Anonymous"` when the display-name tag is
absent, its color is `"#ffffff"` when the color tag is absent or empty,
and its message field is the raw message text unmodified. -/
theorem normalize_fallback_fields (chan : String) (tags : Tags) (msg : String) (sf : Bool) :
    (tags.displayName = none → (normalize chan tags msg sf).username = "Anonymous") ∧
    ((tags.color = none ∨ tags.color = some "") → (normalize chan tags msg sf).color = "#ffffff") ∧
    (normalize chan tags msg sf).message = msg := by
  refine ⟨fun h => ?_, fun h => ?_, rfl⟩
  · simp [normalize, jsOrString, h]
  · rcases h with h | h <;> simp [normalize, jsOrString, h]

/-- Witness for C3 at a concrete tag-free message. -/
theorem normalize_fallback_fields_witness :
    (normalize "chan" ⟨none, none, none⟩ "hello" false).username = "Anonymous" ∧
    (normalize "chan" ⟨none, none, none⟩ "hello" false).color = "#ffffff" ∧
    (normalize "chan" ⟨none, none, none⟩ "hello" false).message = "hello" := by
  have h := normalize_fallback_fields "chan" ⟨none, none, none⟩ "hello" false
  exact ⟨h.1 rfl, h.2.1 (Or.inl rfl), h.2.2⟩

/-- C9: a display-name tag that is present but equal to the empty string
also falls back to `"Anonymous"` — JS `||` treats the empty string as
falsy. -/
theorem normalize_empty_display_name (chan : String) (tags : Tags) (msg : String) (sf : Bool)
    (h : tags.displayName = some "") :
    (normalize chan tags msg sf).username = "Anonymous" := by
  simp [normalize, jsOrString, h]

/-- Witness for C9 at a concrete empty display name. -/
theorem normalize_empty_display_name_witness :
    (normalize "chan" ⟨some "", none, none⟩ "hi" false).username = "Anonymous" :=
  normalize_empty_display_name "chan" ⟨some "", none, none⟩ "hi" false rfl

/-- C10: the broadcast ChatEvent does not depend on the notification's
self/isEcho flag — two notifications identical except for that flag yield
identical events. -/
theorem normalize_self_independent (chan : String) (tags : Tags) (msg : String) (s1 s2 : Bool) :
    normalize chan tags msg s1 = normalize chan tags msg s2 := rfl

/-- C4: extraction is concatenative in the input mapping (id-then-position
iteration order preserved, no sorting, no deduplication); the map
`{"25": ["0-4","10-14"]}` gives exactly the two spans `(0,4)` then
`(10,14)` with id `"25"`; an absent mapping gives the empty sequence. -/
theorem extractEmotes_order :
    (∀ m1 m2 : List (String × List String),
      extractEmotes (some (m1 ++ m2)) = extractEmotes (some m1) ++ extractEmotes (some m2)) ∧
    extractEmotes (some [("25", ["0-4", "10-14"])]) =
      [⟨"25", JsOffset.num 0, JsOffset.num 4⟩, ⟨"25", JsOffset.num 10, JsOffset.num 14⟩] ∧
    extractEmotes (none : EmoteMap) = [] := by
  refine ⟨fun m1 m2 => ?_, by decide, rfl⟩
  simp [extractEmotes, List.flatMap_append]

/-- C5: a position token both of whose fields are present but whose start
or end field is not numeric still yields exactly one span, with the
NotANumber sentinel at each malformed offset — no crash, no drop. -/
theorem extract_malformed_nan (i pos f1 f2 : String)
    (hsplit : jsSplitDash pos = [f1, f2])
    (hmal : jsNumber f1 = JsOffset.nan ∨ jsNumber f2 = JsOffset.nan) :
    extractEmotes (some [(i, [pos])]) =
      [{ id := i, start := jsNumber f1, end_ := jsNumber f2 }] := by
  simp [extractEmotes, parseSpanOffsets, hsplit]

/-- Witness for C5 at the malformed token `"a-b"`. -/
theorem extract_malformed_nan_witness :
    jsNumber "a" = JsOffset.nan ∧
    extractEmotes (some [("25", ["a-b"])]) =
      [{ id := "25", start := jsNumber "a", end_ := jsNumber "b" }] :=
  ⟨by decide, extract_malformed_nan "25" "a-b" "a" "b" (by decide) (Or.inl (by decide))⟩

/-- C7: with `comic-sans.woff2` in the fonts directory, a request for
`Comic-Sans` resolves case-insensitively across the supported extensions
and serves that file. -/
theorem resolve_comic_sans :
    serveFontRequest true ["comic-sans.woff2"] "Comic-Sans" =
      FontResponse.serve "comic-sans.woff2" "font/woff2" := by decide

/-- Counterexample to C1: requesting `MyFont.ttf` when only `myfont.otf`
exists is not answered with 404 — the handler strips the `.ttf` extension
and then retries every supported extension case-insensitively. -/
theorem font_ext_mismatch_not_notFound :
    serveFontRequest true ["myfont.otf"] "MyFont.ttf" ≠ FontResponse.notFound := by decide

/-- C1 amended: requesting `MyFont.ttf` when only `myfont.otf` exists
serves `myfont.otf` with content type `font/otf`, because the supported
extension is stripped from the request and all supported extensions are
retried with base-name case-insensitive matching. -/
theorem font_ext_mismatch_serves :
    serveFontRequest true ["myfont.otf"] "MyFont.ttf" =
      FontResponse.serve "myfont.otf" "font/otf" := by decide

/-- Counterexample to C2: with a missing fonts directory, startup
validation of `"Arial"` succeeds with no disk lookup, but the Asset
Endpoint has no arial special case and answers 404 for the same name. -/
theorem arial_endpoint_lookup :
    validateFont false [] "Arial" = true ∧
    serveFontRequest false [] "Arial" = FontResponse.notFound := by decide

/-- C2 amended: at startup validation, any name that lowercases to
`"arial"` is accepted for every state of the fonts directory, with no
disk lookup; the Asset Endpoint performs its ordinary directory lookup
instead. -/
theorem validateFont_arial (present : Bool) (files : List String) (name : String)
    (h : jsToLower name = "arial") :
    validateFont present files name = true := by
  simp [validateFont, h]

/-- Witness for amended C2 at `"ARIAL"` with a missing directory. -/
theorem validateFont_arial_witness :
    validateFont false [] "ARIAL" = true :=
  validateFont_arial false [] "ARIAL" (by decide)

/-- The lookup loop finds nothing when the directory is absent or no entry
matches any candidate name case-insensitively. -/
theorem resolveFontAux_eq_none (present : Bool) (files : List String) (name : String)
    (exts : List String)
    (h : present = false ∨ ∀ f ∈ files, ∀ e ∈ exts, jsToLower f ≠ jsToLower (name ++ e)) :
    resolveFontAux present files name exts = none := by
  induction exts with
  | nil => rfl
  | cons e es ih =>
    rcases h with h | h
    · subst h
      simpa [resolveFontAux] using ih (Or.inl rfl)
    · have hmem : (name ++ e) ∉ files := fun hm =>
        h _ hm e (List.mem_cons_self _ _) rfl
      have hc : files.contains (name ++ e) = false := by
        simpa using hmem
      have hf : (if present then files else []).find?
          (fun f => jsToLower f == jsToLower (name ++ e)) = none := by
        cases present
        · simp
        · rw [List.find?_eq_none]
          intro f hm
          simp only [beq_iff_eq]
          exact h f hm e (List.mem_cons_self _ _)
      simpa [resolveFontAux, hc, hf, hmem] using
        ih (Or.inr fun f hm e' he' => h f hm e' (List.mem_cons_of_mem _ he'))

/-- C8: for a request whose resolver input (the requested name after
extension stripping) is not `"arial"` case-insensitively, if the fonts
directory is absent or no directory entry case-insensitively equals the
name concatenated with any supported extension, the resolver yields
`none` and the Asset Endpoint answers 404. -/
theorem fonts_notFound (present : Bool) (files : List String) (raw : String)
    (hname : jsToLower (stripFontExt raw) ≠ "arial")
    (h : present = false ∨ ∀ f ∈ files, ∀ e ∈ supportedExts,
      jsToLower f ≠ jsToLower (stripFontExt raw ++ e)) :
    resolveFont present files (stripFontExt raw) = none ∧
    serveFontRequest present files raw = FontResponse.notFound := by
  have hr : resolveFont present files (stripFontExt raw) = none :=
    resolveFontAux_eq_none present files (stripFontExt raw) supportedExts h
  exact ⟨hr, by simp [serveFontRequest, hr]⟩

/-- Witness for C8 at `"Nonexistent"` with a missing fonts directory. -/
theorem fonts_notFound_witness :
    resolveFont false [] (stripFontExt "Nonexistent") = none ∧
    serveFontRequest false [] "Nonexistent" = FontResponse.notFound :=
  fonts_notFound false [] "Nonexistent" (by decide) (Or.inl rfl)

/-- A broadcast appends only `chatMessage` entries to any socket's trace. -/
theorem filter_broadcast_all_chat (c : Nat) (conn : List Nat) (ev : ChatEvent) :
    ∀ m ∈ ((conn.map (fun x => (x, OutMsg.chatMessage ev))).filter
        (fun p => p.1 == c)).map (fun p => p.2),
      m.isChatMessage = true := by
  intro m hm
  rcases List.mem_map.mp hm with ⟨p, hp, rfl⟩
  rcases List.mem_filter.mp hp with ⟨hpmem, _⟩
  rcases List.mem_map.mp hpmem with ⟨x, _, rfl⟩
  rfl

/-- A broadcast delivers nothing to a socket that is not connected. -/
theorem filter_broadcast_not_connected (c : Nat) (conn : List Nat) (m : OutMsg)
    (h : c ∉ conn) :
    (conn.map (fun x => (x, m))).filter (fun p => p.1 == c) = [] := by
  rw [List.filter_eq_nil_iff]
  intro p hp
  rcases List.mem_map.mp hp with ⟨x, hx, rfl⟩
  simp only [beq_iff_eq]
  exact fun hxeq => h (hxeq ▸ hx)

/-- From a state where socket `c` is connected, a run containing no further
`connect c` only appends `chatMessage` payloads to `c`'s trace. -/
theorem clientTrace_run_connected (cfg : SessionConfig) (c : Nat) (es : List InEvent) :
    ∀ s : ServerState, c ∈ s.connected → InEvent.connect c ∉ es →
    ∃ l, clientTrace c (runEvents cfg s es) = clientTrace c s ++ l ∧
      ∀ m ∈ l, m.isChatMessage = true := by
  induction es with
  | nil => exact fun s _ _ => ⟨[], by simp [runEvents], by simp⟩
  | cons e es ih =>
    intro s hc hne
    have hne2 : InEvent.connect c ∉ es := fun h => hne (List.mem_cons_of_mem _ h)
    cases e with
    | connect cid =>
      have hcid : cid ≠ c := fun h =>
        hne (h ▸ List.mem_cons_self _ _)
      obtain ⟨l, hl, hall⟩ := ih (step cfg s (.connect cid))
        (by simp [step]; exact Or.inl hc) hne2
      refine ⟨l, ?_, hall⟩
      rw [runEvents, hl]
      congr 1
      simp [step, clientTrace, List.filter_append, hcid]
    | platformMessage chan tags msg sf =>
      obtain ⟨l, hl, hall⟩ := ih (step cfg s (.platformMessage chan tags msg sf))
        (by simpa [step] using hc) hne2
      refine ⟨((s.connected.map
          (fun x => (x, OutMsg.chatMessage (normalize chan tags msg sf)))).filter
          (fun p => p.1 == c)).map (fun p => p.2) ++ l, ?_, ?_⟩
      · rw [runEvents, hl]
        rw [show clientTrace c (step cfg s (.platformMessage chan tags msg sf)) =
            clientTrace c s ++ ((s.connected.map
              (fun x => (x, OutMsg.chatMessage (normalize chan tags msg sf)))).filter
              (fun p => p.1 == c)).map (fun p => p.2) from by
          simp [step, clientTrace, List.filter_append]]
        rw [List.append_assoc]
      · intro m hm
        rcases List.mem_append.mp hm with h | h
        · exact filter_broadcast_all_chat c s.connected _ m h
        · exact hall m h

/-- Generalization of the settings-first property over a starting state in
which socket `c` is not yet connected and has received nothing. -/
theorem settings_first_aux (cfg : SessionConfig) (c : Nat) :
    ∀ (es : List InEvent) (s : ServerState), c ∉ s.connected → clientTrace c s = [] →
    es.count (InEvent.connect c) = 1 →
    ∃ rest, clientTrace c (runEvents cfg s es) = OutMsg.settings cfg :: rest ∧
      ∀ m ∈ rest, m.isChatMessage = true := by
  intro es
  induction es with
  | nil => intro s _ _ hcount; simp [List.count_nil] at hcount
  | cons e es ih =>
    intro s hnc htr hcount
    by_cases he : e = InEvent.connect c
    · subst he
      have h0 : es.count (InEvent.connect c) = 0 := by
        rw [List.count_cons] at hcount
        simpa using hcount
      have hne : InEvent.connect c ∉ es := List.count_eq_zero.mp h0
      have htr' : clientTrace c (step cfg s (InEvent.connect c)) = [OutMsg.settings cfg] := by
        simp [step, clientTrace, List.filter_append]
        simpa [clientTrace] using htr
      obtain ⟨l, hl, hall⟩ := clientTrace_run_connected cfg c es
        (step cfg s (.connect c)) (by simp [step]) hne
      refine ⟨l, ?_, hall⟩
      rw [runEvents, hl, htr']
      rfl
    · have hcount' : es.count (InEvent.connect c) = 1 := by
        rw [List.count_cons] at hcount
        simpa [he] using hcount
      cases e with
      | connect cid =>
        have hcid : cid ≠ c := fun h => he (by rw [h])
        refine ih (step cfg s (.connect cid)) ?_ ?_ hcount'
        · simp [step]
          exact ⟨hnc, fun h => hcid h.symm⟩
        · simp [step, clientTrace, List.filter_append, hcid]
          simpa [clientTrace] using htr
      | platformMessage chan tags msg sf =>
        refine ih (step cfg s (.platformMessage chan tags msg sf)) ?_ ?_ hcount'
        · simpa [step] using hnc
        · simp [step, clientTrace, List.filter_append,
            filter_broadcast_not_connected c s.connected _ hnc]
          simpa [clientTrace] using htr

/-- C6: a socket that connects exactly once receives the `settings` push as
its first payload, exactly once — every other payload it receives is a
`chatMessage` broadcast, so the push precedes every ChatEvent. -/
theorem settings_first (cfg : SessionConfig) (c : Nat) (es : List InEvent)
    (hcount : es.count (InEvent.connect c) = 1) :
    ∃ rest, clientTrace c (runEvents cfg initState es) = OutMsg.settings cfg :: rest ∧
      ∀ m ∈ rest, m.isChatMessage = true :=
  settings_first_aux cfg c es initState (by simp [initState]) rfl hcount

/-- Witness for C6: a connection followed by one platform message. -/
theorem settings_first_witness :
    ∃ rest, clientTrace 0 (runEvents ⟨1080, 30, "Arial", "Arial"⟩ initState
        [InEvent.connect 0,
         InEvent.platformMessage "chan" ⟨some "Bob", some "#ff0000", none⟩ "hi" false]) =
      OutMsg.settings ⟨1080, 30, "Arial", "Arial"⟩ :: rest ∧
      ∀ m ∈ rest, m.isChatMessage = true :=
  settings_first ⟨1080, 30, "Arial", "Arial"⟩ 0
    [InEvent.connect 0,
     InEvent.platformMessage "chan" ⟨some "Bob", some "#ff0000", none⟩ "hi" false]
    (by decide)

end Overlay
